import Mathlib

/-!
Verification development for the EUM2 AI voice-cloning server
(`src/ai-server/server.py`, the XTTS revision, called v1 below, and
`src/ai-server/server_openvoice_v2.py`, the OpenVoice revision, called v2 below).

The Python code is shallowly embedded: audio buffers are sample lists paired
with an explicit sample rate, speaker embeddings are opaque `Nat` tokens,
the tiered signature store is a record of three association lists
(in-process cache, local embedding directory, S3 objects keyed by object key),
external engines (librosa resampling, DeepFilterNet, MeloTTS, the tone
converter, the S3 transport) are parameters or injected outcome values, and
Python exception propagation is `Except`.
-/

set_option autoImplicit false

namespace EUM2

/-! ## Sentence splitting (`TTSPipeline.split_into_sentences`, v2 lines 310-322)

The Python code splits with `re.split` using two patterns and then strips and
filters the pieces:
  * CJK languages (`ko`, `ja`, `zh`): pattern `(?<=[。！？.!?])\s*` — the text
    is cut immediately after every sentence-final punctuation character, and
    the whitespace run following the cut (possibly empty) is consumed as the
    delimiter.  A zero-width match at the end of the string yields a trailing
    empty piece, exactly as `re.split` does.
  * other languages: pattern `(?<=[.!?])\s+` — the text is cut at every
    nonempty whitespace run immediately preceded by sentence-final
    punctuation; the greedy `\s+` consumes the whole run.
Finally `[s.strip() for s in sentences if s.strip()]` strips each piece and
drops the pieces that strip to the empty string.
-/

/-- Python `\s` / `str.isspace` for the characters relevant here
(space, tab, newline, carriage return, vertical tab, form feed). -/
def isPySpace (c : Char) : Bool :=
  c = ' ' || c = '\t' || c = '\n' || c = '\r' || c.toNat = 11 || c.toNat = 12

/-- Western sentence-final punctuation class `[.!?]`. -/
def isSentPunctW (c : Char) : Bool :=
  c = '.' || c = '!' || c = '?'

/-- CJK sentence-final punctuation class `[。！？.!?]`. -/
def isSentPunctC (c : Char) : Bool :=
  c = '。' || c = '！' || c = '？' || c = '.' || c = '!' || c = '?'

/-- One pass of `re.split` with pattern `(?<=[.!?])\s+`.
`acc` is the current piece (reversed), `skip` is true while consuming the
whitespace run of a delimiter (greedy `\s+`), `prevP` is true when the
previously scanned character was sentence-final punctuation (the lookbehind). -/
def westGo : List Char → List Char → Bool → Bool → List (List Char)
  | [], acc, _, _ => [acc.reverse]
  | c :: rest, acc, skip, prevP =>
    if skip && isPySpace c then
      westGo rest acc true false
    else if prevP && isPySpace c then
      acc.reverse :: westGo rest [] true false
    else
      westGo rest (c :: acc) false (isSentPunctW c)

/-- One pass of `re.split` with pattern `(?<=[。！？.!?])\s*`.
The piece is cut immediately after every punctuation character; `skip` is true
while consuming the (possibly empty) whitespace run after a cut. -/
def cjkGo : List Char → List Char → Bool → List (List Char)
  | [], acc, _ => [acc.reverse]
  | c :: rest, acc, skip =>
    if skip && isPySpace c then
      cjkGo rest acc true
    else if isSentPunctC c then
      (c :: acc).reverse :: cjkGo rest [] true
    else
      cjkGo rest (c :: acc) false

/-- Python `str.strip()`: drop whitespace from both ends. -/
def strip (s : List Char) : List Char :=
  ((s.dropWhile isPySpace).reverse.dropWhile isPySpace).reverse

/-- The first character, if any, is not whitespace. -/
def noLeadWS (s : List Char) : Bool :=
  match s.head? with
  | none => true
  | some c => !isPySpace c

/-- The last character, if any, is not whitespace. -/
def noTrailWS (s : List Char) : Bool :=
  noLeadWS s.reverse

/-- Model of `TTSPipeline.split_into_sentences` (v2 lines 310-322). -/
def split_into_sentences (text : List Char) (language : String) : List (List Char) :=
  let sentences :=
    if language = "ko" || language = "ja" || language = "zh" then
      cjkGo text [] false
    else
      westGo text [] false false
  (sentences.map strip).filter (fun s => !s.isEmpty)

/-- The sentence list actually iterated by `TTSPipeline.synthesize_streaming`
(v2 lines 341-343): `if not sentences: sentences = [text]`. -/
def effectiveSentences (text : List Char) (language : String) : List (List Char) :=
  let sentences := split_into_sentences text language
  if sentences.isEmpty then [text] else sentences

/-! ## Association-list maps

`user_embeddings_cache` is a Python dict, the local embedding directory maps a
user id to one `.pth` file, and the S3 bucket maps an object key to one
object; all three are modelled as association lists with string keys and
opaque `Nat` values standing for the embedding tensors. -/

/-- Dict lookup. -/
def lookupA : List (String × Nat) → String → Option Nat
  | [], _ => none
  | (k, v) :: rest, u => if k = u then some v else lookupA rest u

/-- Dict key removal (`pop` / file unlink / object delete). -/
def eraseA : List (String × Nat) → String → List (String × Nat)
  | [], _ => []
  | (k, v) :: rest, u => if k = u then eraseA rest u else (k, v) :: eraseA rest u

/-- Dict assignment (`d[k] = v` / overwriting a file or object). -/
def insertA (m : List (String × Nat)) (u : String) (e : Nat) : List (String × Nat) :=
  (u, e) :: eraseA m u

/-! ## The tiered signature store (v2)

State of the three tiers: `memory` is `user_embeddings_cache` keyed by user
id, `localFS` is the `user_embeddings/` directory keyed by user id (one
`.pth` file per user), `remote` is the S3 bucket keyed by object key. -/

structure StoreState where
  memory : List (String × Nat)
  localFS : List (String × Nat)
  remote : List (String × Nat)
  deriving DecidableEq, Repr

def memInsert (st : StoreState) (u : String) (e : Nat) : StoreState :=
  { st with memory := insertA st.memory u e }

def localInsert (st : StoreState) (u : String) (e : Nat) : StoreState :=
  { st with localFS := insertA st.localFS u e }

/-- The S3 transport, with per-operation failure injection standing for the
network/IO exceptions `boto3` may raise. -/
structure S3Client where
  uploadFails : Bool
  downloadFails : Bool
  deleteFails : Bool
  deriving DecidableEq, Repr

/-- The object key computed by `S3EmbeddingManager.upload_embedding`:
`voice-embeddings/{user_id}.pth`. -/
def s3KeyFor (userId : String) : String :=
  "voice-embeddings/" ++ userId ++ ".pth"

/-- Model of `S3EmbeddingManager.upload_embedding` (v2 lines 178-190).  The body has a
`try/finally` with no `except` clause: a transport failure propagates to the
caller (modelled as `Except.error`); on success the object is stored and the
key returned. -/
def upload_embedding (c : S3Client) (st : StoreState) (userId : String) (e : Nat) :
    StoreState × Except Unit String :=
  let key := s3KeyFor userId
  if c.uploadFails then (st, Except.error ())
  else ({ st with remote := insertA st.remote key e }, Except.ok key)

/-- Model of `S3EmbeddingManager.download_embedding` (v2 lines 192-206).  Every failure
(transport error, missing object, load error) is caught and `None` returned. -/
def download_embedding (c : S3Client) (st : StoreState) (key : String) : Option Nat :=
  if c.downloadFails then none else lookupA st.remote key

/-- Model of `S3EmbeddingManager.delete_embedding` (v2 lines 208-216).  Failures are
caught and reported as `False`; on success the object is removed. -/
def delete_embedding (c : S3Client) (st : StoreState) (key : String) : StoreState × Bool :=
  if c.deleteFails then (st, false)
  else ({ st with remote := eraseA st.remote key }, true)

/-- Truthiness of the optional `s3_key` argument (`if s3_key and ...`):
present and not the empty string. -/
def keyTruthy : Option String → Bool
  | none => false
  | some k => !(k = "")

/-- Model of `SpeakerEmbeddingManager.enroll_user` (v2 lines 435-468).
`extractResult` is the outcome of `se_extractor.get_se` (the extraction
engine call, which may raise), `localSaveFails` injects a failure of the
local `torch.save`, `mgr` is the global `s3_manager` (or `None`).  The global
mutations performed before an exception remain in place, so the updated store
state is returned alongside the `Except` outcome. -/
def enroll_user (mgr : Option S3Client) (extractResult : Except Unit Nat)
    (localSaveFails : Bool) (st : StoreState) (userId : String) (uploadToS3 : Bool) :
    StoreState × Except Unit (Nat × Option String) :=
  match extractResult with
  | Except.error _ => (st, Except.error ())
  | Except.ok targetSe =>
    -- cache in memory
    let st1 := memInsert st userId targetSe
    -- save locally (torch.save)
    if localSaveFails then (st1, Except.error ())
    else
      let st2 := localInsert st1 userId targetSe
      -- upload to S3 if enabled
      match uploadToS3, mgr with
      | true, some c =>
        match upload_embedding c st2 userId targetSe with
        | (st3, Except.ok key) => (st3, Except.ok (targetSe, some key))
        | (st3, Except.error _) => (st3, Except.error ())
      | _, _ => (st2, Except.ok (targetSe, none))

/-- The storage tiers consulted by a lookup, in order. -/
inductive Tier where
  | memory
  | localDisk
  | remote
  deriving DecidableEq, Repr

/-- Model of `SpeakerEmbeddingManager.get_embedding` (v2 lines 470-498):
memory cache, then local file (promoting to memory), then S3 when an
`s3_key` is supplied and the manager exists (promoting to memory and local).
Also returns the list of tiers consulted. -/
def get_embedding (mgr : Option S3Client) (st : StoreState) (userId : String)
    (s3Key : Option String) : StoreState × Option Nat × List Tier :=
  -- 1. check memory cache
  match lookupA st.memory userId with
  | some e => (st, some e, [Tier.memory])
  | none =>
    -- 2. check local file
    match lookupA st.localFS userId with
    | some e => (memInsert st userId e, some e, [Tier.memory, Tier.localDisk])
    | none =>
      -- 3. try S3 (only `if s3_key and s3_manager`)
      match s3Key, mgr with
      | some key, some c =>
        if key = "" then (st, none, [Tier.memory, Tier.localDisk])
        else
          match download_embedding c st key with
          | some e =>
            (localInsert (memInsert st userId e) userId e, some e,
              [Tier.memory, Tier.localDisk, Tier.remote])
          | none => (st, none, [Tier.memory, Tier.localDisk, Tier.remote])
      | _, _ => (st, none, [Tier.memory, Tier.localDisk])

/-- Model of `SpeakerEmbeddingManager.delete_user` (v2 lines 500-518): pop from the
cache, unlink the local file, and delete from S3 only when an `s3_key` is
supplied and the manager exists; the S3 result is ignored and `True` is
always returned. -/
def delete_user (mgr : Option S3Client) (st : StoreState) (userId : String)
    (s3Key : Option String) : StoreState × Bool :=
  let st1 := { st with memory := eraseA st.memory userId }
  let st2 := { st1 with localFS := eraseA st1.localFS userId }
  let st3 :=
    match s3Key, mgr with
    | some key, some c => if key = "" then st2 else (delete_embedding c st2 key).1
    | _, _ => st2
  (st3, true)

/-- The `/enroll/{user_id}` endpoint `enroll_voice` (v2 lines 646-714):
503 when the tone converter is not loaded, 500 when audio decoding
(`librosa.load`) raises, otherwise `enroll_user`, whose exceptions become a
500 while the global mutations it already performed remain. -/
def enroll_voice (converterLoaded : Bool) (mgr : Option S3Client)
    (decodeResult : Except Unit (List Int × Nat)) (extractResult : Except Unit Nat)
    (localSaveFails : Bool) (st : StoreState) (userId : String) :
    StoreState × Except Nat (Nat × Option String) :=
  if !converterLoaded then (st, Except.error 503)
  else
    match decodeResult with
    | Except.error _ => (st, Except.error 500)
    | Except.ok _ =>
      match enroll_user mgr extractResult localSaveFails st userId true with
      | (st', Except.ok r) => (st', Except.ok r)
      | (st', Except.error _) => (st', Except.error 500)

/-! ## Enhancement stage (`AudioProcessor.enhance_with_deepfilter`)

Sample rates are the module constants; audio data is an opaque sample list.
`resampleExt` stands for `librosa.resample` on unequal rates, `dfEnhance` for
the DeepFilterNet call `df_enhance(df_model, df_state, ...)`, which may raise
(`Except.error`).  `dfAvailable` is `DEEPFILTERNET_AVAILABLE and df_model is
not None`.  Both revisions return the result through `Except` so that an
uncaught Python exception would show up as `Except.error`. -/

def SAMPLE_RATE_OUTPUT : Nat := 24000
def SAMPLE_RATE_XTTS : Nat := 24000
def SAMPLE_RATE_DF : Nat := 48000

/-- Model of `AudioProcessor.resample_audio`: identity on equal rates, otherwise the
external `librosa.resample`. -/
def resample_audio (resampleExt : List Int → Nat → Nat → List Int)
    (audio : List Int) (origSr targetSr : Nat) : List Int :=
  if origSr = targetSr then audio else resampleExt audio origSr targetSr

/-- v1 `AudioProcessor.enhance_with_deepfilter` (server.py lines 124-179):
unavailable engine returns the input unchanged at its own rate; otherwise
upsample to 48 kHz, run the engine, downsample to 24 kHz; any exception in
that block is caught and the raw audio resampled to 24 kHz instead. -/
def enhance_with_deepfilter_v1 (resampleExt : List Int → Nat → Nat → List Int)
    (dfAvailable : Bool) (dfEnhance : List Int → Except Unit (List Int))
    (audio : List Int) (sampleRate : Nat) : Except Unit (List Int × Nat) :=
  if !dfAvailable then Except.ok (audio, sampleRate)
  else
    let body : Except Unit (List Int × Nat) := do
      let audio48 :=
        if sampleRate ≠ SAMPLE_RATE_DF then
          resample_audio resampleExt audio sampleRate SAMPLE_RATE_DF
        else audio
      let enhanced48 ← dfEnhance audio48
      let enhanced :=
        if SAMPLE_RATE_DF ≠ SAMPLE_RATE_XTTS then
          resample_audio resampleExt enhanced48 SAMPLE_RATE_DF SAMPLE_RATE_XTTS
        else enhanced48
      pure (enhanced, SAMPLE_RATE_XTTS)
    match body with
    | Except.ok r => Except.ok r
    | Except.error _ =>
      let fallback :=
        if sampleRate ≠ SAMPLE_RATE_XTTS then
          resample_audio resampleExt audio sampleRate SAMPLE_RATE_XTTS
        else audio
      Except.ok (fallback, SAMPLE_RATE_XTTS)

/-- v2 `AudioProcessor.enhance_with_deepfilter` (v2 lines 124-159):
unavailable engine returns the input at its own rate; otherwise upsample to
48 kHz and run the engine, returning its output at 48 kHz; any exception is
caught and the input returned at its own rate. -/
def enhance_with_deepfilter_v2 (resampleExt : List Int → Nat → Nat → List Int)
    (dfAvailable : Bool) (dfEnhance : List Int → Except Unit (List Int))
    (audio : List Int) (sampleRate : Nat) : Except Unit (List Int × Nat) :=
  if !dfAvailable then Except.ok (audio, sampleRate)
  else
    let body : Except Unit (List Int × Nat) := do
      let audio48 :=
        if sampleRate ≠ SAMPLE_RATE_DF then
          resample_audio resampleExt audio sampleRate SAMPLE_RATE_DF
        else audio
      let enhanced48 ← dfEnhance audio48
      pure (enhanced48, SAMPLE_RATE_DF)
    match body with
    | Except.ok r => Except.ok r
    | Except.error _ => Except.ok (audio, sampleRate)

/-! ## Streaming synthesis (`TTSPipeline.synthesize_streaming`, v2 lines 324-388)

The observable behaviour on the WebSocket is a list of events. -/

inductive Ev where
  /-- a JSON control message carrying an error -/
  | errorMsg
  /-- the JSON status-complete control message -/
  | statusComplete
  /-- one binary audio frame (`send_bytes`) -/
  | audioFrame
  /-- connection closed with the given code -/
  | closed (code : Nat)
  deriving DecidableEq, Repr

def isOkE {α : Type} : Except Unit α → Bool
  | Except.ok _ => true
  | Except.error _ => false

/-- The per-sentence loop of `synthesize_streaming` (v2 lines 349-386).
`outcome i s` is the combined result of the external calls for sentence `s`
at index `i` (MeloTTS synthesis, tone conversion, reload, `send_bytes`): a
success emits one binary frame, an exception is caught, logged and skipped
(`continue`); empty sentences are skipped without an engine call. -/
def processSentences (outcome : Nat → List Char → Except Unit (List Int)) :
    Nat → List (List Char) → List Ev
  | _, [] => []
  | i, s :: rest =>
    if s.isEmpty then processSentences outcome (i + 1) rest
    else
      match outcome i s with
      | Except.ok _ => Ev.audioFrame :: processSentences outcome (i + 1) rest
      | Except.error _ => processSentences outcome (i + 1) rest

/-- Model of `TTSPipeline.synthesize_streaming` (v2 lines 324-388): segment the text
(falling back to the whole text when segmentation is empty), load the
language model and source embedding (`prep`, whose failure propagates), run
the per-sentence loop, then send the status-complete message once. -/
def synthesize_streaming (text : List Char) (language : String)
    (prep : Except Unit Unit)
    (outcome : Nat → List Char → Except Unit (List Int)) : Except Unit (List Ev) :=
  let sentences := effectiveSentences text language
  match prep with
  | Except.error _ => Except.error ()
  | Except.ok _ => Except.ok (processSentences outcome 0 sentences ++ [Ev.statusComplete])

/-! ## WebSocket sessions (`websocket_tts` in both revisions) -/

/-- The supported language set, the keys of `LANGUAGE_CONFIG` (v2 lines
101-106). -/
def supportedLanguages : List String := ["ko", "en", "ja", "zh"]

/-- One decoded request message of the v2 WebSocket loop, together with the
injected behaviour of the external engines for this request: `prep` is the
model/source-embedding loading outcome and `outcome` the per-sentence engine
outcome. -/
structure WsRequest where
  text : List Char
  language : String
  s3Key : Option String
  prep : Except Unit Unit
  outcome : Nat → List Char → Except Unit (List Int)

/-- One iteration of the v2 request loop (v2 lines 816-848): the optional
S3 reload when no embedding is held, the empty-text check, the language
check, then `synthesize_streaming` under a `try/except` that reports an
inline error.  Returns the updated store state and held embedding, the
events sent, and the number of `synthesize_streaming` invocations. -/
def handle_request_v2 (mgr : Option S3Client) (st : StoreState) (userId : String)
    (targetSe : Option Nat) (req : WsRequest) :
    StoreState × Option Nat × List Ev × Nat :=
  -- optional: load from S3 if s3_key provided and no embedding held
  let reload :=
    if keyTruthy req.s3Key && targetSe.isNone then
      let r := get_embedding mgr st userId req.s3Key
      match r.2.1 with
      | none => (r.1, none, true)
      | some e => (r.1, some e, false)
    else (st, targetSe, false)
  match reload with
  | (st1, se1, reloadFailed) =>
    if reloadFailed then (st1, se1, [Ev.errorMsg], 0)
    else if req.text.isEmpty then (st1, se1, [Ev.errorMsg], 0)
    else if !(supportedLanguages.contains req.language) then (st1, se1, [Ev.errorMsg], 0)
    else
      match synthesize_streaming req.text req.language req.prep req.outcome with
      | Except.ok evs => (st1, se1, evs, 1)
      | Except.error _ => (st1, se1, [Ev.errorMsg], 1)

/-- The v2 request loop (`while True` in v2 lines 816-848), threading the
store state and the held embedding through the iterations. -/
def ws_loop_v2 (mgr : Option S3Client) (userId : String) :
    StoreState → Option Nat → List WsRequest → List Ev
  | _, _, [] => []
  | st, se, req :: rest =>
    match handle_request_v2 mgr st userId se req with
    | (st1, se1, evs, _) => evs ++ ws_loop_v2 mgr userId st1 se1 rest

/-- The v2 `websocket_tts` endpoint (v2 lines 791-854): accept, look up the
user's embedding with no `s3_key`, close 4001 when none is found, close 4002
when the tone converter is not loaded, otherwise run the request loop. -/
def websocket_tts_v2 (mgr : Option S3Client) (st : StoreState)
    (converterLoaded : Bool) (userId : String) (reqs : List WsRequest) : List Ev :=
  let r := get_embedding mgr st userId none
  match r.2.1 with
  | none => [Ev.errorMsg, Ev.closed 4001]
  | some se =>
    if !converterLoaded then [Ev.errorMsg, Ev.closed 4002]
    else ws_loop_v2 mgr userId r.1 (some se) reqs

/-- One decoded request of the v1 WebSocket loop.  `synth` is the outcome of
the XTTS `inference_stream` call and the chunk-emission loop: a list of
chunks (`none` chunks are skipped by `if chunk is not None`), or an
exception. -/
structure WsRequestV1 where
  text : List Char
  language : String
  synth : Except Unit (List (Option Int))

/-- One iteration of the v1 request loop (server.py lines 474-541): the
empty-text check, then XTTS streaming under `try/except`; there is no
language validation.  Returns the events sent and the number of synthesis
invocations. -/
def handle_request_v1 (req : WsRequestV1) : List Ev × Nat :=
  if req.text.isEmpty then ([Ev.errorMsg], 0)
  else
    match req.synth with
    | Except.ok chunks =>
      ((chunks.filterMap id).map (fun _ => Ev.audioFrame) ++ [Ev.statusComplete], 1)
    | Except.error _ => ([Ev.errorMsg], 1)

/-- The v1 `websocket_tts` endpoint (server.py lines 438-547): accept, close
4001 when the user is not in `user_latents`, close 4002 when the model is
not loaded, otherwise run the request loop. -/
def websocket_tts_v1 (latents : List (String × Nat)) (ttsLoaded : Bool)
    (userId : String) (reqs : List WsRequestV1) : List Ev :=
  if (lookupA latents userId).isNone then [Ev.errorMsg, Ev.closed 4001]
  else if !ttsLoaded then [Ev.errorMsg, Ev.closed 4002]
  else reqs.flatMap (fun r => (handle_request_v1 r).1)

/-! ## Helper lemmas -/

theorem lookupA_insertA_self (m : List (String × Nat)) (u : String) (e : Nat) :
    lookupA (insertA m u e) u = some e := by
  simp [insertA, lookupA]

theorem lookupA_eraseA_self (m : List (String × Nat)) (u : String) :
    lookupA (eraseA m u) u = none := by
  induction m with
  | nil => rfl
  | cons p rest ih =>
    obtain ⟨k, v⟩ := p
    by_cases h : k = u <;> simp [eraseA, lookupA, h, ih]

theorem eraseA_idem (m : List (String × Nat)) (u : String) :
    eraseA (eraseA m u) u = eraseA m u := by
  induction m with
  | nil => rfl
  | cons p rest ih =>
    obtain ⟨k, v⟩ := p
    by_cases h : k = u <;> simp [eraseA, h, ih]

theorem noLeadWS_dropWhile (l : List Char) :
    noLeadWS (l.dropWhile isPySpace) = true := by
  induction l with
  | nil => rfl
  | cons c rest ih =>
    by_cases h : isPySpace c
    · simpa [List.dropWhile_cons, h] using ih
    · simp [List.dropWhile_cons, h, noLeadWS]

theorem exists_append_dropWhile (p : Char → Bool) (l : List Char) :
    ∃ m, l = m ++ l.dropWhile p := by
  induction l with
  | nil => exact ⟨[], rfl⟩
  | cons c rest ih =>
    by_cases h : p c
    · obtain ⟨m, hm⟩ := ih
      refine ⟨c :: m, ?_⟩
      simpa [List.dropWhile_cons, h] using hm
    · exact ⟨[], by simp [List.dropWhile_cons, h]⟩

theorem strip_noTrail (s : List Char) : noTrailWS (strip s) = true := by
  unfold strip noTrailWS
  rw [List.reverse_reverse]
  exact noLeadWS_dropWhile _

theorem strip_noLead (s : List Char) (h : strip s ≠ []) :
    noLeadWS (strip s) = true := by
  have hA : noLeadWS (s.dropWhile isPySpace) = true := noLeadWS_dropWhile s
  obtain ⟨m, hm⟩ := exists_append_dropWhile isPySpace (s.dropWhile isPySpace).reverse
  have hsdef : strip s = ((s.dropWhile isPySpace).reverse.dropWhile isPySpace).reverse := rfl
  have hA2 : s.dropWhile isPySpace
      = ((s.dropWhile isPySpace).reverse.dropWhile isPySpace).reverse ++ m.reverse := by
    have h2 := congrArg List.reverse hm
    simpa [List.reverse_append] using h2
  cases hB : ((s.dropWhile isPySpace).reverse.dropWhile isPySpace).reverse with
  | nil => exact absurd (hsdef.trans hB) h
  | cons c cs =>
    rw [hB] at hA2
    rw [hsdef, hB]
    rw [hA2] at hA
    simpa [noLeadWS] using hA

theorem isSentPunctW_of_not_C (c : Char) (h : isSentPunctC c = false) :
    isSentPunctW c = false := by
  unfold isSentPunctC at h
  unfold isSentPunctW
  simp only [Bool.or_eq_false_iff] at h ⊢
  exact ⟨⟨h.1.1.2, h.1.2⟩, h.2⟩

theorem westGo_no_punct (text : List Char)
    (h : ∀ c ∈ text, isSentPunctW c = false) :
    ∀ acc : List Char, westGo text acc false false = [acc.reverse ++ text] := by
  induction text with
  | nil => intro acc; simp [westGo]
  | cons c rest ih =>
    intro acc
    have hc : isSentPunctW c = false := h c (by simp)
    have hrest : ∀ x ∈ rest, isSentPunctW x = false :=
      fun x hx => h x (List.mem_cons_of_mem _ hx)
    rw [westGo, hc]
    simpa using ih hrest (c :: acc)

theorem cjkGo_no_punct (text : List Char)
    (h : ∀ c ∈ text, isSentPunctC c = false) :
    ∀ acc : List Char, cjkGo text acc false = [acc.reverse ++ text] := by
  induction text with
  | nil => intro acc; simp [cjkGo]
  | cons c rest ih =>
    intro acc
    have hc : isSentPunctC c = false := h c (by simp)
    have hrest : ∀ x ∈ rest, isSentPunctC x = false :=
      fun x hx => h x (List.mem_cons_of_mem _ hx)
    rw [cjkGo, hc]
    simpa using ih hrest (c :: acc)

/-! ## Claim C10 -/

/-- Claim C10: for every text and every language, every string in the list
returned by `split_into_sentences` is non-empty and carries no leading or
trailing whitespace. -/
theorem split_sentences_nonempty_no_ws (text : List Char) (language : String)
    (s : List Char) (hs : s ∈ split_into_sentences text language) :
    s ≠ [] ∧ noLeadWS s = true ∧ noTrailWS s = true := by
  unfold split_into_sentences at hs
  rw [List.mem_filter] at hs
  obtain ⟨hmem, hne⟩ := hs
  rw [List.mem_map] at hmem
  obtain ⟨t, -, rfl⟩ := hmem
  have hne2 : strip t ≠ [] := by
    intro hcontra
    rw [hcontra] at hne
    simp at hne
  exact ⟨hne2, strip_noLead t hne2, strip_noTrail t⟩

/-- Witness for C10 at a concrete input. -/
theorem split_sentences_nonempty_no_ws_witness :
    ("Hi.".toList ∈ split_into_sentences ("Hi.".toList) "en") ∧
    ("Hi.".toList ≠ [] ∧ noLeadWS ("Hi.".toList) = true ∧
      noTrailWS ("Hi.".toList) = true) := by
  have hmem : "Hi.".toList ∈ split_into_sentences ("Hi.".toList) "en" := by decide
  exact ⟨hmem, split_sentences_nonempty_no_ws _ "en" _ hmem⟩

/-! ## Claim C6 -/

/-- Claim C6 counterexample: the whitespace-only input `" "` contains zero
sentence-final punctuation, yet segmentation yields zero sentences, not
exactly one sentence equal to the trimmed input. -/
theorem split_no_punct_zero_sentences_cex :
    (∀ c ∈ (" ".toList), isSentPunctC c = false) ∧
    split_into_sentences (" ".toList) "en" = [] := by
  constructor
  · decide
  · rfl

/-- Claim C6 (amended): segmenting `"Hello there. How are you?"` for `"en"`
yields exactly the two sentences; segmenting `"안녕하세요. 반갑습니다."` for
`"ko"` yields exactly the two sentences; an input with zero sentence-final
punctuation that does not strip to nothing yields exactly one sentence equal
to the trimmed input (a whitespace-only input instead yields zero sentences);
and when segmentation yields zero sentences the synthesis loop treats the
whole input as one sentence. -/
theorem split_into_sentences_spec :
    (split_into_sentences ("Hello there. How are you?".toList) "en"
      = ["Hello there.".toList, "How are you?".toList]) ∧
    (split_into_sentences ("안녕하세요. 반갑습니다.".toList) "ko"
      = ["안녕하세요.".toList, "반갑습니다.".toList]) ∧
    (∀ (language : String) (text : List Char),
      (∀ c ∈ text, isSentPunctC c = false) → strip text ≠ [] →
      split_into_sentences text language = [strip text]) ∧
    (∀ (language : String) (text : List Char),
      split_into_sentences text language = [] →
      effectiveSentences text language = [text]) := by
  refine ⟨by decide, by decide, ?_, ?_⟩
  · intro language text hpunct hne
    have hfilter : ∀ pieces : List (List Char), pieces = [text] →
        ((pieces.map strip).filter (fun s => !s.isEmpty)) = [strip text] := by
      intro pieces hp
      subst hp
      cases hstrip : strip text with
      | nil => exact absurd hstrip hne
      | cons a l => simp [List.filter, hstrip]
    unfold split_into_sentences
    by_cases hl : (language = "ko" || language = "ja" || language = "zh") = true
    · simp only [hl, if_true]
      exact hfilter _ (by simpa using cjkGo_no_punct text hpunct [])
    · simp only [Bool.not_eq_true] at hl
      simp only [hl, Bool.false_eq_true, if_false]
      have hW : ∀ c ∈ text, isSentPunctW c = false :=
        fun c hc => isSentPunctW_of_not_C c (hpunct c hc)
      exact hfilter _ (by simpa using westGo_no_punct text hW [])
  · intro language text h
    unfold effectiveSentences
    rw [h]
    rfl

/-- Witness for C6 discharging the hypotheses of the universally quantified
conjuncts at concrete inputs. -/
theorem split_into_sentences_spec_witness :
    (split_into_sentences ("no punct".toList) "en" = [strip ("no punct".toList)]) ∧
    (effectiveSentences (" ".toList) "en" = [" ".toList]) := by
  refine ⟨split_into_sentences_spec.2.2.1 "en" ("no punct".toList) (by decide) (by decide),
    split_into_sentences_spec.2.2.2 "en" (" ".toList) (by decide)⟩

/-! ## Claim C3 -/

theorem processSentences_count_complete
    (outcome : Nat → List Char → Except Unit (List Int)) (l : List (List Char)) :
    ∀ i, (processSentences outcome i l).count Ev.statusComplete = 0 := by
  induction l with
  | nil => intro i; rfl
  | cons s rest ih =>
    intro i
    by_cases hs : s.isEmpty
    · simp [processSentences, hs, ih]
    · cases ho : outcome i s <;> simp [processSentences, hs, ho, ih, List.count_cons]

theorem processSentences_count_frames
    (outcome : Nat → List Char → Except Unit (List Int)) (l : List (List Char)) :
    ∀ i, (processSentences outcome i l).count Ev.audioFrame
      = (List.enumFrom i l).countP
          (fun p => !p.2.isEmpty && isOkE (outcome p.1 p.2)) := by
  induction l with
  | nil => intro i; rfl
  | cons s rest ih =>
    intro i
    by_cases hs : s.isEmpty
    · simp [processSentences, hs, ih, List.enumFrom, List.countP_cons]
    · cases ho : outcome i s <;>
        simp [processSentences, hs, ho, ih, List.enumFrom, List.countP_cons,
          List.count_cons, isOkE]

theorem processSentences_all_fail
    (outcome : Nat → List Char → Except Unit (List Int))
    (h : ∀ i s, outcome i s = Except.error ()) (l : List (List Char)) :
    ∀ i, processSentences outcome i l = [] := by
  induction l with
  | nil => intro i; rfl
  | cons s rest ih =>
    intro i
    by_cases hs : s.isEmpty <;> simp [processSentences, hs, h i s, ih]

theorem getLast_append_single {α : Type} (xs : List α) (a : α) :
    (xs ++ [a]).getLast? = some a := by
  exact List.getLast?_concat _

/-- Claim C3: within one synthesis request, a per-sentence failure is caught
and the loop continues with the next sentence (the number of emitted frames
equals the number of non-empty sentences whose pipeline succeeds, whatever
the failures); after the last sentence the status-complete message is sent
exactly once, as the final event — also when every sentence fails and no
audio frame was emitted. -/
theorem synthesize_streaming_complete_once (text : List Char) (language : String)
    (outcome : Nat → List Char → Except Unit (List Int)) :
    ∃ evs, synthesize_streaming text language (Except.ok ()) outcome = Except.ok evs ∧
      evs.count Ev.statusComplete = 1 ∧
      evs.getLast? = some Ev.statusComplete ∧
      evs.count Ev.audioFrame
        = (List.enumFrom 0 (effectiveSentences text language)).countP
            (fun p => !p.2.isEmpty && isOkE (outcome p.1 p.2)) ∧
      ((∀ i s, outcome i s = Except.error ()) → evs = [Ev.statusComplete]) := by
  refine ⟨processSentences outcome 0 (effectiveSentences text language)
      ++ [Ev.statusComplete], rfl, ?_, ?_, ?_, ?_⟩
  · rw [List.count_append, processSentences_count_complete]
    rfl
  · exact getLast_append_single _ _
  · rw [List.count_append, processSentences_count_frames]
    rfl
  · intro h
    rw [processSentences_all_fail outcome h]
    rfl

/-- Witness for C3: with every sentence failing, the request still ends with
exactly the status-complete message. -/
theorem synthesize_streaming_complete_once_witness :
    ∃ evs, synthesize_streaming ("One. Two.".toList) "en" (Except.ok ())
        (fun _ _ => Except.error ()) = Except.ok evs ∧ evs = [Ev.statusComplete] := by
  obtain ⟨evs, h1, -, -, -, h5⟩ :=
    synthesize_streaming_complete_once ("One. Two.".toList) "en"
      (fun _ _ => Except.error ())
  exact ⟨evs, h1, h5 (fun _ _ => rfl)⟩

/-! ## Claim C1 -/

/-- Claim C1 counterexample: with the engine unavailable and a 16 kHz input,
`enhance_with_deepfilter` (v1; v2 behaves the same) returns the audio at
16000 Hz, not at the canonical output rate. -/
theorem enhance_rate_not_canonical_cex :
    ∃ r, enhance_with_deepfilter_v1 (fun a _ _ => a) false (fun x => Except.ok x)
        [1] 16000 = Except.ok r ∧ r.2 ≠ SAMPLE_RATE_OUTPUT := by
  exact ⟨([1], 16000), rfl, by decide⟩

/-- Claim C1 (amended): for every input buffer and every engine behaviour
(unavailable, succeeding, or raising), both revisions of
`enhance_with_deepfilter` return normally — no error propagates.  The
returned sample rate, however, is canonical (24000) only on the v1
enhanced and exception-fallback paths; when the engine is unavailable both
revisions return the input rate unchanged, and on v2 a successful
enhancement returns the engine rate 48000 while the exception fallback
returns the input rate. -/
theorem enhance_returns_normally_rates
    (re : List Int → Nat → Nat → List Int) (avail : Bool)
    (df : List Int → Except Unit (List Int)) (audio : List Int) (sr : Nat) :
    (∃ r1, enhance_with_deepfilter_v1 re avail df audio sr = Except.ok r1) ∧
    (∃ r2, enhance_with_deepfilter_v2 re avail df audio sr = Except.ok r2) ∧
    (avail = false →
      enhance_with_deepfilter_v1 re avail df audio sr = Except.ok (audio, sr) ∧
      enhance_with_deepfilter_v2 re avail df audio sr = Except.ok (audio, sr)) ∧
    (avail = true →
      ∃ out, enhance_with_deepfilter_v1 re avail df audio sr = Except.ok out ∧
        out.2 = SAMPLE_RATE_XTTS) ∧
    (avail = true → ∀ e,
      df (resample_audio re audio sr SAMPLE_RATE_DF) = Except.ok e →
      enhance_with_deepfilter_v2 re avail df audio sr = Except.ok (e, SAMPLE_RATE_DF)) ∧
    (avail = true →
      df (resample_audio re audio sr SAMPLE_RATE_DF) = Except.error () →
      enhance_with_deepfilter_v2 re avail df audio sr = Except.ok (audio, sr)) := by
  have h48 : (if sr ≠ SAMPLE_RATE_DF then resample_audio re audio sr SAMPLE_RATE_DF
      else audio) = resample_audio re audio sr SAMPLE_RATE_DF := by
    by_cases hsr : sr = SAMPLE_RATE_DF <;> simp [hsr, resample_audio]
  cases avail with
  | false =>
    refine ⟨⟨(audio, sr), rfl⟩, ⟨(audio, sr), rfl⟩, fun _ => ⟨rfl, rfl⟩,
      fun h => absurd h (by decide), fun h => absurd h (by decide),
      fun h => absurd h (by decide)⟩
  | true =>
    cases hdf : df (resample_audio re audio sr SAMPLE_RATE_DF) with
    | ok e =>
      have hv1 : enhance_with_deepfilter_v1 re true df audio sr
          = Except.ok (resample_audio re e SAMPLE_RATE_DF SAMPLE_RATE_XTTS,
              SAMPLE_RATE_XTTS) := by
        simp [enhance_with_deepfilter_v1, h48, hdf, bind, Except.bind, pure,
          Except.pure, (by decide : ¬ SAMPLE_RATE_DF = SAMPLE_RATE_XTTS)]
      have hv2 : enhance_with_deepfilter_v2 re true df audio sr
          = Except.ok (e, SAMPLE_RATE_DF) := by
        simp [enhance_with_deepfilter_v2, h48, hdf, bind, Except.bind, pure,
          Except.pure]
      refine ⟨⟨_, hv1⟩, ⟨_, hv2⟩, fun h => absurd h (by decide),
        fun _ => ⟨_, hv1, rfl⟩, fun _ e2 he2 => ?_, fun _ habs => ?_⟩
      · have he : e = e2 := by injection he2
        rw [← he]
        exact hv2
      · exact Except.noConfusion habs
    | error u =>
      cases u
      have hv1 : enhance_with_deepfilter_v1 re true df audio sr
          = Except.ok ((if sr = SAMPLE_RATE_XTTS then audio
              else resample_audio re audio sr SAMPLE_RATE_XTTS),
              SAMPLE_RATE_XTTS) := by
        simp [enhance_with_deepfilter_v1, h48, hdf, bind, Except.bind, pure,
          Except.pure]
      have hv2 : enhance_with_deepfilter_v2 re true df audio sr
          = Except.ok (audio, sr) := by
        simp [enhance_with_deepfilter_v2, h48, hdf, bind, Except.bind, pure,
          Except.pure]
      refine ⟨⟨_, hv1⟩, ⟨_, hv2⟩, fun h => absurd h (by decide),
        fun _ => ⟨_, hv1, rfl⟩, fun _ e2 he2 => ?_, fun _ _ => hv2⟩
      exact Except.noConfusion he2

/-- Witness for C1 at concrete engine behaviours. -/
theorem enhance_returns_normally_rates_witness :
    (enhance_with_deepfilter_v1 (fun a _ _ => a) false (fun x => Except.ok x) [1] 16000
        = Except.ok ([1], 16000) ∧
     enhance_with_deepfilter_v2 (fun a _ _ => a) false (fun x => Except.ok x) [1] 16000
        = Except.ok ([1], 16000)) ∧
    (∃ out, enhance_with_deepfilter_v1 (fun a _ _ => a) true (fun _ => Except.error ())
        [1] 16000 = Except.ok out ∧ out.2 = SAMPLE_RATE_XTTS) ∧
    enhance_with_deepfilter_v2 (fun a _ _ => a) true (fun _ => Except.error ()) [1] 16000
        = Except.ok ([1], 16000) := by
  refine ⟨(enhance_returns_normally_rates (fun a _ _ => a) false
      (fun x => Except.ok x) [1] 16000).2.2.1 rfl, ?_, ?_⟩
  · exact (enhance_returns_normally_rates (fun a _ _ => a) true
      (fun _ => Except.error ()) [1] 16000).2.2.2.1 rfl
  · exact (enhance_returns_normally_rates (fun a _ _ => a) true
      (fun _ => Except.error ()) [1] 16000).2.2.2.2.2 rfl rfl

/-! ## Claims about the tiered store -/

theorem enroll_user_memory (mgr : Option S3Client) (st : StoreState) (u : String)
    (s : Nat) (lsf up : Bool) :
    (enroll_user mgr (Except.ok s) lsf st u up).1.memory = insertA st.memory u s := by
  cases mgr with
  | none =>
    cases lsf <;> cases up <;>
      simp [enroll_user, memInsert, localInsert]
  | some c =>
    cases lsf <;> cases up <;> cases hc : c.uploadFails <;>
      simp [enroll_user, memInsert, localInsert, upload_embedding, hc]

/-- Claim C2 counterexample: with the signature present only in the remote
tier, a lookup given no remote locator (as the streaming endpoint issues it)
reports NotFound after consulting only the memory and local tiers, although
the remote tier still holds the signature. -/
theorem get_notfound_remote_unexhausted_cex :
    (get_embedding (some (S3Client.mk false false false))
        (StoreState.mk [] [] [("voice-embeddings/u.pth", 7)]) "u" none).2.1 = none ∧
    (get_embedding (some (S3Client.mk false false false))
        (StoreState.mk [] [] [("voice-embeddings/u.pth", 7)]) "u" none).2.2
      = [Tier.memory, Tier.localDisk] ∧
    lookupA (StoreState.mk [] [] [("voice-embeddings/u.pth", 7)]).remote
      (s3KeyFor "u") = some 7 := by
  refine ⟨rfl, rfl, ?_⟩
  decide

/-- Claim C2 (amended): `put(u, s)` followed immediately by `get(u)` returns
`s`, and that lookup is satisfied by the memory tier alone without touching
the remote tier; `get(u)` reports NotFound only after the memory tier and
the local durable tier have missed and — when a remote locator is supplied
and the remote manager is initialized — the remote fetch has also failed;
with no locator supplied the remote tier is not consulted. -/
theorem store_put_get_memory_and_notfound :
    (∀ (mgr : Option S3Client) (st : StoreState) (u : String) (s : Nat)
        (lsf up : Bool) (k : Option String),
      get_embedding mgr (enroll_user mgr (Except.ok s) lsf st u up).1 u k
        = ((enroll_user mgr (Except.ok s) lsf st u up).1, some s, [Tier.memory])) ∧
    (∀ (mgr : Option S3Client) (st : StoreState) (u : String) (k : Option String),
      (get_embedding mgr st u k).2.1 = none →
        lookupA st.memory u = none ∧ lookupA st.localFS u = none ∧
        (∀ key c, k = some key → mgr = some c → ¬ key = "" →
          download_embedding c st key = none)) := by
  constructor
  · intro mgr st u s lsf up k
    have hmem := enroll_user_memory mgr st u s lsf up
    unfold get_embedding
    rw [hmem, lookupA_insertA_self]
  · intro mgr st u k h
    unfold get_embedding at h
    cases h1 : lookupA st.memory u with
    | some e => rw [h1] at h; simp at h
    | none =>
      rw [h1] at h
      cases h2 : lookupA st.localFS u with
      | some e => rw [h2] at h; simp at h
      | none =>
        rw [h2] at h
        refine ⟨rfl, rfl, ?_⟩
        intro key c hk hc hne
        subst hk
        subst hc
        simp only [hne, if_false] at h
        cases h3 : download_embedding c st key with
        | some e => rw [h3] at h; simp at h
        | none => rfl

/-- Witness for C2: discharging the NotFound hypothesis on the empty store
and exercising the put-then-get equation concretely. -/
theorem store_put_get_memory_and_notfound_witness :
    (get_embedding none (enroll_user none (Except.ok 7) false
        (StoreState.mk [] [] []) "u1" true).1 "u1" none
      = ((enroll_user none (Except.ok 7) false (StoreState.mk [] [] []) "u1" true).1,
          some 7, [Tier.memory])) ∧
    (lookupA (StoreState.mk [] [] []).memory "u1" = none ∧
     lookupA (StoreState.mk [] [] []).localFS "u1" = none ∧
     (∀ key c, (none : Option String) = some key → (none : Option S3Client) = some c →
        ¬ key = "" → download_embedding c (StoreState.mk [] [] []) key = none)) := by
  exact ⟨store_put_get_memory_and_notfound.1 none (StoreState.mk [] [] []) "u1" 7
      false true none,
    store_put_get_memory_and_notfound.2 none (StoreState.mk [] [] []) "u1" none rfl⟩

/-- Claim C4 counterexample: a failing remote-tier write propagates out of
the put operation, so the put call (and with it the enrollment request)
fails instead of merely logging the remote failure. -/
theorem remote_failure_fails_put_cex :
    (enroll_user (some (S3Client.mk true false false)) (Except.ok 5) false
        (StoreState.mk [] [] []) "u" true).2 = Except.error () := rfl

/-- Claim C4 (amended): `put(u, s)` writes to the in-process cache first,
then writes the durable local copy, then attempts the remote-tier write;
when the remote write fails the exception propagates and the put call fails,
but the memory and local writes already performed remain in place; when it
succeeds the call returns the remote key and all three tiers hold the
signature. -/
theorem put_writes_tiers_in_order (c : S3Client) (st : StoreState) (u : String)
    (s : Nat) :
    ((enroll_user (some c) (Except.ok s) true st u true).2 = Except.error () ∧
     (enroll_user (some c) (Except.ok s) true st u true).1 = memInsert st u s) ∧
    (lookupA (enroll_user (some c) (Except.ok s) false st u true).1.memory u
        = some s ∧
     lookupA (enroll_user (some c) (Except.ok s) false st u true).1.localFS u
        = some s) ∧
    (c.uploadFails = true →
      (enroll_user (some c) (Except.ok s) false st u true).2 = Except.error () ∧
      (enroll_user (some c) (Except.ok s) false st u true).1.remote = st.remote) ∧
    (c.uploadFails = false →
      (enroll_user (some c) (Except.ok s) false st u true).2
          = Except.ok (s, some (s3KeyFor u)) ∧
      lookupA (enroll_user (some c) (Except.ok s) false st u true).1.remote
          (s3KeyFor u) = some s) := by
  cases hc : c.uploadFails <;>
    simp [enroll_user, upload_embedding, memInsert, localInsert, hc,
      lookupA_insertA_self]

/-- Witness for C4 discharging both remote-outcome hypotheses at concrete
clients. -/
theorem put_writes_tiers_in_order_witness :
    ((enroll_user (some (S3Client.mk true false false)) (Except.ok 5) false
        (StoreState.mk [] [] []) "u" true).2 = Except.error () ∧
     (enroll_user (some (S3Client.mk true false false)) (Except.ok 5) false
        (StoreState.mk [] [] []) "u" true).1.remote = (StoreState.mk [] [] []).remote) ∧
    ((enroll_user (some (S3Client.mk false false false)) (Except.ok 5) false
        (StoreState.mk [] [] []) "u" true).2 = Except.ok (5, some (s3KeyFor "u")) ∧
     lookupA (enroll_user (some (S3Client.mk false false false)) (Except.ok 5) false
        (StoreState.mk [] [] []) "u" true).1.remote (s3KeyFor "u") = some 5) := by
  exact ⟨(put_writes_tiers_in_order (S3Client.mk true false false)
      (StoreState.mk [] [] []) "u" 5).2.2.1 rfl,
    (put_writes_tiers_in_order (S3Client.mk false false false)
      (StoreState.mk [] [] []) "u" 5).2.2.2 rfl⟩

/-- Claim C5 counterexample: when the remote upload fails, the enrollment
endpoint reports failure (HTTP 500) yet the memory and local tiers already
hold the freshly extracted signature — enrollment is not all-or-nothing. -/
theorem enroll_failure_leaves_partial_state_cex :
    (enroll_voice true (some (S3Client.mk true false false)) (Except.ok ([1], 16000))
        (Except.ok 5) false (StoreState.mk [] [] []) "u").2 = Except.error 500 ∧
    lookupA (enroll_voice true (some (S3Client.mk true false false))
        (Except.ok ([1], 16000)) (Except.ok 5) false
        (StoreState.mk [] [] []) "u").1.memory "u" = some 5 ∧
    lookupA (enroll_voice true (some (S3Client.mk true false false))
        (Except.ok ([1], 16000)) (Except.ok 5) false
        (StoreState.mk [] [] []) "u").1.localFS "u" = some 5 := by
  exact ⟨rfl, rfl, rfl⟩

/-- Claim C5 (amended): enrollment failures up to and including signature
extraction store nothing — an uninitialized extraction engine (503), an
undecodable input (500) and an extraction error (500) all leave the store
state unchanged in every tier; a failure after extraction (local save or
remote upload) leaves the writes already performed in place. -/
theorem enrollment_failures_before_extraction_store_nothing :
    (∀ (mgr : Option S3Client) (lsf : Bool) (st : StoreState) (u : String) (up : Bool),
      enroll_user mgr (Except.error ()) lsf st u up = (st, Except.error ())) ∧
    (∀ (mgr : Option S3Client) (decodeR : Except Unit (List Int × Nat))
        (extractR : Except Unit Nat) (lsf : Bool) (st : StoreState) (u : String),
      enroll_voice false mgr decodeR extractR lsf st u = (st, Except.error 503)) ∧
    (∀ (mgr : Option S3Client) (extractR : Except Unit Nat) (lsf : Bool)
        (st : StoreState) (u : String),
      enroll_voice true mgr (Except.error ()) extractR lsf st u
        = (st, Except.error 500)) ∧
    (∀ (mgr : Option S3Client) (lsf : Bool) (st : StoreState) (u : String)
        (d : List Int × Nat),
      enroll_voice true mgr (Except.ok d) (Except.error ()) lsf st u
        = (st, Except.error 500)) ∧
    (∀ (c : S3Client) (st : StoreState) (u : String) (s : Nat),
      c.uploadFails = true →
        (enroll_voice true (some c) (Except.ok ([], 0)) (Except.ok s) false st u).2
            = Except.error 500 ∧
        lookupA (enroll_voice true (some c) (Except.ok ([], 0)) (Except.ok s)
            false st u).1.memory u = some s ∧
        lookupA (enroll_voice true (some c) (Except.ok ([], 0)) (Except.ok s)
            false st u).1.localFS u = some s) := by
  refine ⟨?_, ?_, ?_, ?_, ?_⟩
  · intro mgr lsf st u up
    cases lsf <;> cases up <;> rfl
  · intro mgr decodeR extractR lsf st u
    rfl
  · intro mgr extractR lsf st u
    rfl
  · intro mgr lsf st u d
    cases lsf <;> rfl
  · intro c st u s hc
    simp [enroll_voice, enroll_user, upload_embedding, memInsert, localInsert, hc,
      lookupA_insertA_self]

/-- Witness for C5 discharging the upload-failure hypothesis concretely. -/
theorem enrollment_failures_before_extraction_store_nothing_witness :
    (enroll_voice true (some (S3Client.mk true true true)) (Except.ok ([], 0))
        (Except.ok 9) false (StoreState.mk [] [] []) "w").2 = Except.error 500 ∧
    lookupA (enroll_voice true (some (S3Client.mk true true true)) (Except.ok ([], 0))
        (Except.ok 9) false (StoreState.mk [] [] []) "w").1.memory "w" = some 9 ∧
    lookupA (enroll_voice true (some (S3Client.mk true true true)) (Except.ok ([], 0))
        (Except.ok 9) false (StoreState.mk [] [] []) "w").1.localFS "w" = some 9 := by
  exact enrollment_failures_before_extraction_store_nothing.2.2.2.2
    (S3Client.mk true true true) (StoreState.mk [] [] []) "w" 9 rfl

/-! ## Claim C7 -/

/-- Claim C7 counterexample: `delete(u)` issued without a remote locator (the
deletion endpoint's default) leaves the remote copy in place, and a
subsequent `get(u)` that is given the locator returns the signature instead
of NotFound. -/
theorem delete_then_get_finds_remote_cex :
    lookupA (delete_user (some (S3Client.mk false false false))
        (StoreState.mk [("u", 7)] [("u", 7)] [("voice-embeddings/u.pth", 7)])
        "u" none).1.remote (s3KeyFor "u") = some 7 ∧
    (get_embedding (some (S3Client.mk false false false))
        (delete_user (some (S3Client.mk false false false))
          (StoreState.mk [("u", 7)] [("u", 7)] [("voice-embeddings/u.pth", 7)])
          "u" none).1
        "u" (some (s3KeyFor "u"))).2.1 = some 7 := by
  constructor
  · decide
  · decide

/-- Claim C7 (amended): `delete(u)` removes the signature from the memory and
local tiers unconditionally, and from the remote tier only when a remote
locator is supplied, the remote manager is initialized and the remote delete
succeeds; it always reports success, tolerating absence from any subset of
tiers, and running it twice gives the same result and state (idempotence);
`delete(u)` then `get(u)` reports NotFound whenever `get` is given no remote
locator, and also with the same locator when the remote delete was
performed. -/
theorem delete_user_all_tiers_idempotent (mgr : Option S3Client) (st : StoreState)
    (u : String) (k : Option String) :
    (delete_user mgr st u k).2 = true ∧
    lookupA (delete_user mgr st u k).1.memory u = none ∧
    lookupA (delete_user mgr st u k).1.localFS u = none ∧
    (∀ c key, mgr = some c → k = some key → ¬ key = "" → c.deleteFails = false →
      lookupA (delete_user mgr st u k).1.remote key = none) ∧
    delete_user mgr (delete_user mgr st u k).1 u k = delete_user mgr st u k ∧
    (get_embedding mgr (delete_user mgr st u k).1 u none).2.1 = none ∧
    (∀ c key, mgr = some c → k = some key → ¬ key = "" → c.deleteFails = false →
      (get_embedding mgr (delete_user mgr st u k).1 u k).2.1 = none) := by
  have hmem : lookupA (delete_user mgr st u k).1.memory u = none := by
    cases k with
    | none => simp [delete_user, lookupA_eraseA_self]
    | some key =>
      cases mgr with
      | none => simp [delete_user, lookupA_eraseA_self]
      | some c =>
        by_cases hk : key = "" <;> cases hdel : c.deleteFails <;>
          simp [delete_user, delete_embedding, hk, hdel, lookupA_eraseA_self]
  have hloc : lookupA (delete_user mgr st u k).1.localFS u = none := by
    cases k with
    | none => simp [delete_user, lookupA_eraseA_self]
    | some key =>
      cases mgr with
      | none => simp [delete_user, lookupA_eraseA_self]
      | some c =>
        by_cases hk : key = "" <;> cases hdel : c.deleteFails <;>
          simp [delete_user, delete_embedding, hk, hdel, lookupA_eraseA_self]
  have hrem : ∀ c key, mgr = some c → k = some key → ¬ key = "" →
      c.deleteFails = false →
      lookupA (delete_user mgr st u k).1.remote key = none := by
    intro c key hc hk hne hdel
    subst hc
    subst hk
    simp [delete_user, delete_embedding, hne, hdel, lookupA_eraseA_self]
  have hidem : delete_user mgr (delete_user mgr st u k).1 u k
      = delete_user mgr st u k := by
    cases k with
    | none => simp [delete_user, eraseA_idem]
    | some key =>
      cases mgr with
      | none => simp [delete_user, eraseA_idem]
      | some c =>
        by_cases hk : key = "" <;> cases hdel : c.deleteFails <;>
          simp [delete_user, delete_embedding, hk, hdel, eraseA_idem]
  refine ⟨rfl, hmem, hloc, hrem, hidem, ?_, ?_⟩
  · unfold get_embedding
    rw [hmem, hloc]
  · intro c key hc hk hne hdel
    subst hc
    subst hk
    unfold get_embedding
    rw [hmem, hloc]
    simp only [hne, if_false]
    cases hdl : c.downloadFails with
    | true => simp [download_embedding, hdl]
    | false => simp [download_embedding, hdl, hrem c key rfl rfl hne hdel]

/-- Witness for C7 on a store holding the signature in all three tiers, with
the remote locator supplied to both delete and get. -/
theorem delete_user_all_tiers_idempotent_witness :
    lookupA (delete_user (some (S3Client.mk false false false))
        (StoreState.mk [("u", 7)] [("u", 7)] [("voice-embeddings/u.pth", 7)])
        "u" (some (s3KeyFor "u"))).1.remote (s3KeyFor "u") = none ∧
    (get_embedding (some (S3Client.mk false false false))
        (delete_user (some (S3Client.mk false false false))
          (StoreState.mk [("u", 7)] [("u", 7)] [("voice-embeddings/u.pth", 7)])
          "u" (some (s3KeyFor "u"))).1
        "u" (some (s3KeyFor "u"))).2.1 = none := by
  refine ⟨(delete_user_all_tiers_idempotent (some (S3Client.mk false false false))
      (StoreState.mk [("u", 7)] [("u", 7)] [("voice-embeddings/u.pth", 7)])
      "u" (some (s3KeyFor "u"))).2.2.2.1 (S3Client.mk false false false)
      (s3KeyFor "u") rfl rfl (by decide) rfl,
    (delete_user_all_tiers_idempotent (some (S3Client.mk false false false))
      (StoreState.mk [("u", 7)] [("u", 7)] [("voice-embeddings/u.pth", 7)])
      "u" (some (s3KeyFor "u"))).2.2.2.2.2.2 (S3Client.mk false false false)
      (s3KeyFor "u") rfl rfl (by decide) rfl⟩

/-! ## Claim C8 -/

/-- Claim C8: a streaming connection opened for a user with no stored
signature in any tier is closed with code 4001 after the inline error
message, and no binary audio frame is ever sent — in both revisions. -/
theorem unenrolled_user_closes_4001
    (mgr : Option S3Client) (st : StoreState) (conv : Bool) (u : String)
    (reqs : List WsRequest) (latents : List (String × Nat)) (tts : Bool)
    (reqs1 : List WsRequestV1)
    (hm : lookupA st.memory u = none) (hl : lookupA st.localFS u = none)
    (hr : lookupA st.remote (s3KeyFor u) = none)
    (hv1 : lookupA latents u = none) :
    websocket_tts_v2 mgr st conv u reqs = [Ev.errorMsg, Ev.closed 4001] ∧
    Ev.audioFrame ∉ websocket_tts_v2 mgr st conv u reqs ∧
    websocket_tts_v1 latents tts u reqs1 = [Ev.errorMsg, Ev.closed 4001] ∧
    Ev.audioFrame ∉ websocket_tts_v1 latents tts u reqs1 := by
  have h2 : websocket_tts_v2 mgr st conv u reqs = [Ev.errorMsg, Ev.closed 4001] := by
    unfold websocket_tts_v2 get_embedding
    cases mgr with
    | none => rw [hm, hl]
    | some c => rw [hm, hl]
  have h1 : websocket_tts_v1 latents tts u reqs1 = [Ev.errorMsg, Ev.closed 4001] := by
    unfold websocket_tts_v1
    rw [hv1]
    rfl
  refine ⟨h2, ?_, h1, ?_⟩
  · rw [h2]; decide
  · rw [h1]; decide

/-- Witness for C8: the unenrolled user `"ghost"` on an empty store. -/
theorem unenrolled_user_closes_4001_witness :
    websocket_tts_v2 none (StoreState.mk [] [] []) true "ghost" []
        = [Ev.errorMsg, Ev.closed 4001] ∧
    Ev.audioFrame ∉ websocket_tts_v2 none (StoreState.mk [] [] []) true "ghost" [] ∧
    websocket_tts_v1 [] true "ghost" [] = [Ev.errorMsg, Ev.closed 4001] ∧
    Ev.audioFrame ∉ websocket_tts_v1 [] true "ghost" [] := by
  exact unenrolled_user_closes_4001 none (StoreState.mk [] [] []) true "ghost" []
    [] true [] rfl rfl rfl rfl

/-! ## Claim C9 -/

/-- Claim C9 counterexample: the v1 revision performs no language validation
in the Ready state — a request with the unsupported language `"xx"` and
non-empty text is handed to the synthesis engine (one invocation) rather
than being rejected inline without invoking synthesis. -/
theorem v1_unsupported_language_invokes_synthesis_cex :
    supportedLanguages.contains "xx" = false ∧
    (handle_request_v1 (WsRequestV1.mk ("hi".toList) "xx" (Except.error ()))).2 = 1 ∧
    (handle_request_v1 (WsRequestV1.mk ("hi".toList) "xx" (Except.error ()))).1
      = [Ev.errorMsg] := by
  refine ⟨by decide, rfl, rfl⟩

/-- Claim C9 (amended): in the Ready state, a request with empty text
produces an inline error message and returns the session to Ready — no close
event, no synthesis invocation, and the loop continues with the next
request — in both revisions; a request with an unsupported language is
rejected the same way in the v2 revision, while the v1 revision passes the
language to the synthesis engine and reports any failure inline. -/
theorem ready_state_validation :
    (∀ (mgr : Option S3Client) (st : StoreState) (u : String) (se : Nat)
        (req : WsRequest),
      req.text = [] →
        handle_request_v2 mgr st u (some se) req = (st, some se, [Ev.errorMsg], 0)) ∧
    (∀ (mgr : Option S3Client) (st : StoreState) (u : String) (se : Nat)
        (req : WsRequest),
      supportedLanguages.contains req.language = false →
        handle_request_v2 mgr st u (some se) req = (st, some se, [Ev.errorMsg], 0)) ∧
    (∀ (mgr : Option S3Client) (st : StoreState) (u : String) (se : Nat)
        (req : WsRequest) (rest : List WsRequest),
      (req.text = [] ∨ supportedLanguages.contains req.language = false) →
        ws_loop_v2 mgr u st (some se) (req :: rest)
          = Ev.errorMsg :: ws_loop_v2 mgr u st (some se) rest) ∧
    (∀ req1 : WsRequestV1, req1.text = [] →
      handle_request_v1 req1 = ([Ev.errorMsg], 0)) := by
  have hempty : ∀ (mgr : Option S3Client) (st : StoreState) (u : String) (se : Nat)
      (req : WsRequest), req.text = [] →
      handle_request_v2 mgr st u (some se) req = (st, some se, [Ev.errorMsg], 0) := by
    intro mgr st u se req h
    simp [handle_request_v2, h]
  have hlang : ∀ (mgr : Option S3Client) (st : StoreState) (u : String) (se : Nat)
      (req : WsRequest), supportedLanguages.contains req.language = false →
      handle_request_v2 mgr st u (some se) req = (st, some se, [Ev.errorMsg], 0) := by
    intro mgr st u se req h
    by_cases ht : req.text = []
    · exact hempty mgr st u se req ht
    · simp [handle_request_v2, ht, h]
      intro hmem
      exact absurd hmem (by simpa using h)
  refine ⟨hempty, hlang, ?_, ?_⟩
  · intro mgr st u se req rest h
    cases h with
    | inl h =>
      rw [ws_loop_v2, hempty mgr st u se req h]
      rfl
    | inr h =>
      rw [ws_loop_v2, hlang mgr st u se req h]
      rfl
  · intro req1 h
    simp [handle_request_v1, h]

/-- Witness for C9 at concrete invalid requests. -/
theorem ready_state_validation_witness :
    handle_request_v2 none (StoreState.mk [] [] []) "u" (some 7)
        (WsRequest.mk [] "ko" none (Except.ok ()) (fun _ _ => Except.ok []))
      = (StoreState.mk [] [] [], some 7, [Ev.errorMsg], 0) ∧
    handle_request_v2 none (StoreState.mk [] [] []) "u" (some 7)
        (WsRequest.mk ("hi".toList) "xx" none (Except.ok ()) (fun _ _ => Except.ok []))
      = (StoreState.mk [] [] [], some 7, [Ev.errorMsg], 0) ∧
    handle_request_v1 (WsRequestV1.mk [] "ko" (Except.ok [])) = ([Ev.errorMsg], 0) := by
  refine ⟨ready_state_validation.1 none (StoreState.mk [] [] []) "u" 7 _ rfl,
    ready_state_validation.2.1 none (StoreState.mk [] [] []) "u" 7 _ (by decide),
    ready_state_validation.2.2.2 _ rfl⟩

end EUM2
